import Mathlib

/-!
Verification of the live-preview update pipeline of ghostwriter
(`src/htmlpreview.cpp`): update coordination, diff-anchoring, and
content publication.  The C++ class pair `HtmlPreview` /
`HtmlPreviewPrivate` is embedded as a state structure `St` together
with functions returning the successor state and a trace of observable
events (render dispatches, content publications, shell reloads).
The spec's concurrency model marshals every mutation onto one control
thread, so the embedding is sequential; the asynchronous render future
is modelled as the list `pending` of outstanding future results.
-/

namespace ghostwriter

/-- One piece of the anchored output built by `onHtmlReady`
(`htmlpreview.cpp` lines 274-317): either a copied line of the new
HTML (the stream writes the line followed by a newline) or the anchor
marker `<a id="livepreviewmodifypoint"></a>`. -/
inductive Chunk where
  | line (s : String)
  | anchor
deriving DecidableEq, Repr

/-- The third phase of the diff loop in `onHtmlReady` (lines 309-317):
copy every remaining line of the new document, inserting the anchor
first when no difference has been found yet.  `d` is the running
`differenceFound` flag; the returned flag is the value of
`differenceFound` after the loop. -/
def copyRemaining : Bool → List String → List Chunk × Bool
  | d, [] => ([], d)
  | d, n :: rest =>
      if d then (Chunk.line n :: (copyRemaining true rest).1, true)
      else (Chunk.anchor :: Chunk.line n :: (copyRemaining true rest).1, true)

/-- The diff-anchoring algorithm of `onHtmlReady` (lines 280-317) on
the two documents as line sequences.  Phase one (lines 284-296) walks
both sequences in lockstep while lines are equal and stops at the
first mismatch, emitting the anchor there without consuming the new
line; phase two (lines 301-304) inserts the anchor when the new
document ran out before the old one; phase three (`copyRemaining`,
lines 309-317) copies all remaining new lines, anchoring first if no
difference was seen.  Returns the output chunks and `differenceFound`. -/
def anchorDiff : List String → List String → List Chunk × Bool
  | o :: os, n :: ns =>
      if o = n then
        ((Chunk.line n :: (anchorDiff os ns).1), (anchorDiff os ns).2)
      else
        (Chunk.anchor :: (copyRemaining true (n :: ns)).1, true)
  | _ :: _, [] => ([Chunk.anchor], true)
  | [], ns => copyRemaining false ns

/-- The anchor marker string written by `anchoredHtmlDoc` at lines
290, 303 and 311. -/
def anchorMarker : String := "<a id=\"livepreviewmodifypoint\"></a>"

/-- Serialisation of one chunk: copied lines are written followed by a
newline (`anchoredHtmlDoc << newLine << "\n"`), the anchor is the
marker tag. -/
def renderChunk : Chunk → String
  | Chunk.line s => s ++ "\n"
  | Chunk.anchor => anchorMarker

/-- The anchored HTML string assembled by `onHtmlReady`. -/
def renderChunks (cs : List Chunk) : String :=
  String.join (cs.map renderChunk)

/-- Helper for `splitLines`: reads the character list, cutting a line
at each newline; a trailing newline ends the stream without producing
an extra empty line, matching `QTextStream::readLine` returning a null
string at end of stream. -/
def linesAux : List Char → List Char → List String
  | acc, [] => [String.mk acc.reverse]
  | acc, c :: cs =>
      if c = '\n' then
        String.mk acc.reverse ::
          (match cs with
           | [] => []
           | _ :: _ => linesAux [] cs)
      else linesAux (c :: acc) cs

/-- The sequence of lines `QTextStream::readLine` yields on a string:
the empty string yields no line at all (the stream is immediately at
its end, `readLine` returns a null `QString`). -/
def splitLines (s : String) : List String :=
  if s.isEmpty then [] else linesAux [] s.data

/-- The external renderer (`Exporter`): its persisted smart-typography
setting and its rendering function, which receives the text and the
setting in force at call time. -/
structure Exporter where
  smartTypographyEnabled : Bool
  render : String → Bool → String

/-- Model of `HtmlPreviewPrivate::exportToHtml` (lines 380-401): save the
exporter's smart-typography setting, force it on, render, restore the
saved setting.  Returns the produced HTML and the exporter as left
after the call. -/
def exportToHtml (text : String) (e : Exporter) : String × Exporter :=
  let smartTypographyEnabled := e.smartTypographyEnabled
  let e1 : Exporter := { e with smartTypographyEnabled := true }
  let html := e1.render text e1.smartTypographyEnabled
  let e2 : Exporter := { e1 with smartTypographyEnabled := smartTypographyEnabled }
  (html, e2)

/-- Observable events of the pipeline: a render dispatched to the
worker (`QtConcurrent::run`, lines 230-238), a publication of markup
to the live-preview observer (`livePreviewHtml.setText`), a stylesheet
publication (`styleSheet.setText`), and a reload of the static shell
(`setHtml(wrapperHtml, baseUrl)`, line 354). -/
inductive Ev where
  | renderDispatched (text : String)
  | publish (html : String)
  | stylePublish (css : String)
  | reloadShell (base : String)
deriving DecidableEq, Repr

/-- The state of one preview instance: the fields of
`HtmlPreviewPrivate` (lines 57-67) plus the document's observable
text and file path and the widget's visibility, which the code reads
through `document->...` and `isVisible()`.  `pending` models the
outstanding asynchronous render futures: each entry is the HTML a
dispatched render will deliver. -/
structure St where
  docText : String
  filePath : String
  visible : Bool
  updateInProgress : Bool
  updateAgain : Bool
  vanillaHtml : String
  livePreviewHtml : String
  styleSheet : String
  baseUrl : String
  exporter : Option Exporter
  pending : List String

/-- Model of `HtmlPreviewPrivate::setHtmlContent` (lines 372-378): store the
HTML as the diff backup and publish it to the live-preview observer.
(The function's static diagnostic counter has no observable effect and
is not modelled.) -/
def setHtmlContent (html : String) (s : St) : St × List Ev :=
  ({ s with vanillaHtml := html, livePreviewHtml := html }, [Ev.publish html])

/-- Model of `HtmlPreview::updatePreview` (lines 211-242).  A call during an
in-flight render only sets `updateAgain`; otherwise, when visible: an
empty document publishes empty content, a configured exporter with
non-empty text dispatches an asynchronous render (the future's result
is `exportToHtml` on the current text snapshot) and marks the render
in flight. -/
def updatePreview (s : St) : St × List Ev :=
  if s.updateInProgress then
    ({ s with updateAgain := true }, [])
  else if s.visible then
    if s.docText.isEmpty then
      setHtmlContent "" s
    else
      match s.exporter with
      | some e =>
          if ¬s.docText.isEmpty then
            ({ s with updateInProgress := true,
                      pending := s.pending ++ [(exportToHtml s.docText e).1] },
             [Ev.renderDispatched s.docText])
          else (s, [])
      | none => (s, [])
  else
    (s, [])

/-- The diff-and-publish part of `onHtmlReady` (lines 269-322): run
the anchoring diff of the new HTML against the stored vanilla HTML;
when a difference was found, publish the anchored HTML through
`setHtmlContent` and then overwrite the stored backup with the vanilla
(un-anchored) render, line 321. -/
def diffPublishPhase (html : String) (s : St) : St × List Ev :=
  let r := anchorDiff (splitLines s.vanillaHtml) (splitLines html)
  if r.2 then
    let c := setHtmlContent (renderChunks r.1) s
    ({ c.1 with vanillaHtml := html }, c.2)
  else
    (s, [])

/-- Model of `HtmlPreviewPrivate::onHtmlReady` (lines 267-331): diff and
publish, clear `updateInProgress`, and when `updateAgain` was set,
clear it and re-invoke `updatePreview` once. -/
def onHtmlReady (html : String) (s : St) : St × List Ev :=
  let p := diffPublishPhase html s
  let s2 : St := { p.1 with updateInProgress := false }
  if s2.updateAgain then
    let u := updatePreview { s2 with updateAgain := false }
    (u.1, p.2 ++ u.2)
  else
    (s2, p.2)

/-- Completion of the outstanding render: the future watcher fires
(lines 132-139), delivering the head of `pending` to `onHtmlReady`. -/
def completeRender (s : St) : St × List Ev :=
  match s.pending with
  | [] => (s, [])
  | h :: rest => onHtmlReady h { s with pending := rest }

/-- Model of `HtmlPreview::setHtmlExporter` (lines 255-260): swap the exporter,
clear the published content and diff baseline, and request an update. -/
def setHtmlExporter (e : Exporter) (s : St) : St × List Ev :=
  let s1 : St := { s with exporter := some e }
  let c := setHtmlContent "" s1
  let u := updatePreview c.1
  (u.1, c.2 ++ u.2)

/-- Model of `HtmlPreview::setStyleSheet` (lines 262-265): publish the CSS to
the stylesheet observer. -/
def setStyleSheet (css : String) (s : St) : St × List Ev :=
  ({ s with styleSheet := css }, [Ev.stylePublish css])

/-- Model of `HtmlPreview::closeEvent` (lines 363-370): clear the published
content, the vanilla backup, and the live-preview observer text. -/
def closeEvent (s : St) : St × List Ev :=
  let c := setHtmlContent "" s
  let s1 : St := { c.1 with vanillaHtml := "" }
  ({ s1 with livePreviewHtml := "" }, c.2 ++ [Ev.publish ""])

/-- The base location computed by `updateBaseDir` (lines 342-352):
when the document has a file path, the local-file URL of the
containing directory with a trailing separator appended; otherwise the
empty string.  `resolveDir` stands for
`QFileInfo(path).dir().absolutePath()` and `fromLocalFile` for
`QUrl::fromLocalFile(...).toString()`. -/
def baseLocation (resolveDir fromLocalFile : String → String) (p : String) : String :=
  if ¬p.isEmpty then fromLocalFile (resolveDir p ++ "/") else ""

/-- Model of `HtmlPreviewPrivate::updateBaseDir` (lines 340-356): recompute the
base URL from the document's file path, reload the static shell rooted
there (`setHtml(wrapperHtml, baseUrl)`), then request one update. -/
def updateBaseDir (resolveDir fromLocalFile : String → String) (s : St) : St × List Ev :=
  let base := baseLocation resolveDir fromLocalFile s.filePath
  let s1 : St := { s with baseUrl := base }
  let u := updatePreview s1
  (u.1, Ev.reloadShell base :: u.2)

/-- The state built by the `HtmlPreview` constructor (lines 88-197):
flags cleared, strings empty, no future outstanding, the widget not
yet shown, then one call to `updateBaseDir` (line 196). -/
def mkInit (docText filePath : String) (exporter : Option Exporter)
    (resolveDir fromLocalFile : String → String) : St :=
  (updateBaseDir resolveDir fromLocalFile
    { docText := docText, filePath := filePath, visible := false,
      updateInProgress := false, updateAgain := false,
      vanillaHtml := "", livePreviewHtml := "", styleSheet := "",
      baseUrl := "", exporter := exporter, pending := [] }).1

/-- Iterate `updatePreview` `n` times on the state (the calls during
an in-flight render emit no events). -/
def updateN : Nat → St → St
  | 0, s => s
  | n + 1, s => updateN n (updatePreview s).1

/-- One step of the preview instance: external document edits,
visibility toggles, the public entry points, the file-path-changed
handler, and delivery of an outstanding render result. -/
inductive Step : St → St → Prop where
  | editDoc (t : String) (s : St) : Step s { s with docText := t }
  | setVisible (b : Bool) (s : St) : Step s { s with visible := b }
  | update (s : St) : Step s (updatePreview s).1
  | complete (s : St) (h : String) (rest : List String)
      (hp : s.pending = h :: rest) :
      Step s (onHtmlReady h { s with pending := rest }).1
  | close (s : St) : Step s (closeEvent s).1
  | swapExporter (e : Exporter) (s : St) : Step s (setHtmlExporter e s).1
  | setStyle (css : String) (s : St) : Step s (setStyleSheet css s).1
  | pathChanged (p : String) (rd fl : String → String) (s : St) :
      Step s (updateBaseDir rd fl { s with filePath := p }).1

/-- States reachable from a freshly constructed preview instance. -/
inductive Reachable : St → Prop where
  | init (docText filePath : String) (exporter : Option Exporter)
      (rd fl : String → String) :
      Reachable (mkInit docText filePath exporter rd fl)
  | step {s s2 : St} : Reachable s → Step s s2 → Reachable s2

/-- Count the events of a trace satisfying a predicate. -/
def countEv (p : Ev → Bool) (tr : List Ev) : Nat :=
  (tr.filter p).length

/-- Predicate selecting render-dispatch events. -/
def isDispatch : Ev → Bool
  | Ev.renderDispatched _ => true
  | _ => false

/-- Predicate selecting markup publications. -/
def isPublish : Ev → Bool
  | Ev.publish _ => true
  | _ => false

/-- Predicate selecting shell reloads. -/
def isReload : Ev → Bool
  | Ev.reloadShell _ => true
  | _ => false

/-! ## Helper lemmas -/

/-- Once `differenceFound` is set, the remaining-lines loop just copies
every new line. -/
theorem copyRemaining_true (l : List String) :
    copyRemaining true l = (l.map Chunk.line, true) := by
  induction l with
  | nil => rfl
  | cons n rest ih => simp [copyRemaining, ih]

/-- Diffing a line sequence against itself copies it and finds no
difference. -/
theorem anchorDiff_self (l : List String) :
    anchorDiff l l = (l.map Chunk.line, false) := by
  induction l with
  | nil => rfl
  | cons a l ih => simp [anchorDiff, ih]

/-- A call to `updatePreview` during an in-flight render only sets
`updateAgain` and emits nothing. -/
theorem updatePreview_busy (s : St) (h : s.updateInProgress = true) :
    updatePreview s = ({ s with updateAgain := true }, []) := by
  simp [updatePreview, h]

/-- Any positive number of `updatePreview` calls during an in-flight
render leaves exactly the state with `updateAgain` set. -/
theorem updateN_busy (n : Nat) (s : St) (h : s.updateInProgress = true)
    (hn : 1 ≤ n) : updateN n s = { s with updateAgain := true } := by
  induction n generalizing s with
  | zero => omega
  | succ n ih =>
      rw [updateN, updatePreview_busy s h]
      rcases Nat.eq_zero_or_pos n with h0 | h0
      · subst h0; rfl
      · rw [ih { s with updateAgain := true } h h0]

/-- The trace of one `updatePreview` call is empty, a single empty
publication, or a single render dispatch of the document text. -/
theorem updatePreview_events (s : St) :
    (updatePreview s).2 = [] ∨ (updatePreview s).2 = [Ev.publish ""] ∨
      (updatePreview s).2 = [Ev.renderDispatched s.docText] := by
  unfold updatePreview setHtmlContent
  repeat' split
  all_goals simp

/-- The diff-and-publish phase touches only `vanillaHtml` and
`livePreviewHtml`; every other field is preserved. -/
theorem diffPublishPhase_fields (html : String) (s : St) :
    (diffPublishPhase html s).1.docText = s.docText ∧
    (diffPublishPhase html s).1.filePath = s.filePath ∧
    (diffPublishPhase html s).1.visible = s.visible ∧
    (diffPublishPhase html s).1.updateInProgress = s.updateInProgress ∧
    (diffPublishPhase html s).1.updateAgain = s.updateAgain ∧
    (diffPublishPhase html s).1.styleSheet = s.styleSheet ∧
    (diffPublishPhase html s).1.baseUrl = s.baseUrl ∧
    (diffPublishPhase html s).1.exporter = s.exporter ∧
    (diffPublishPhase html s).1.pending = s.pending := by
  by_cases hc : (anchorDiff (splitLines s.vanillaHtml) (splitLines html)).2 = true <;>
    simp [diffPublishPhase, setHtmlContent, hc]

/-- The diff-and-publish phase emits only markup publications. -/
theorem diffPublishPhase_events (html : String) (s : St) :
    (diffPublishPhase html s).2 = [] ∨
      (diffPublishPhase html s).2 =
        [Ev.publish (renderChunks (anchorDiff (splitLines s.vanillaHtml)
          (splitLines html)).1)] := by
  by_cases hc : (anchorDiff (splitLines s.vanillaHtml) (splitLines html)).2 = true <;>
    simp [diffPublishPhase, setHtmlContent, hc]

/-- The function `updatePreview` never sets `updateAgain` when no render is in
flight. -/
theorem updatePreview_updateAgain (s : St) (h : s.updateInProgress = false) :
    (updatePreview s).1.updateAgain = s.updateAgain := by
  unfold updatePreview setHtmlContent
  repeat' split
  all_goals simp_all

/-- One `updatePreview` call either keeps the stored vanilla output
and the published markup or resets them to empty (the empty-document
branch), and never touches the stylesheet. -/
theorem updatePreview_content (s : St) :
    ((updatePreview s).1.vanillaHtml = s.vanillaHtml ∨
      (updatePreview s).1.vanillaHtml = "") ∧
    ((updatePreview s).1.livePreviewHtml = s.livePreviewHtml ∨
      (updatePreview s).1.livePreviewHtml = "") ∧
    (updatePreview s).1.styleSheet = s.styleSheet := by
  unfold updatePreview setHtmlContent
  repeat' split
  all_goals simp

/-- When idle, visible, with a non-empty document and a configured
exporter, `updatePreview` dispatches exactly one render of the
document text. -/
theorem updatePreview_dispatch_count (s : St) (e : Exporter)
    (hip : s.updateInProgress = false) (hv : s.visible = true)
    (hd : s.docText.isEmpty = false) (he : s.exporter = some e) :
    (updatePreview s).2 = [Ev.renderDispatched s.docText] := by
  simp [updatePreview, hip, hv, hd, he]

/-- The follow-up `updatePreview` run by a completion (on the
diff-phase state with both flags cleared) dispatches exactly one
render when the original state was visible with a non-empty document
and a configured exporter. -/
theorem coalesced_dispatch (html : String) (s : St)
    (hv : s.visible = true) (hd : s.docText.isEmpty = false)
    (e : Exporter) (he : s.exporter = some e) :
    (updatePreview { (diffPublishPhase html s).1 with
      updateInProgress := false, updateAgain := false }).2 =
      [Ev.renderDispatched s.docText] := by
  obtain ⟨hfd, -, hfv, -, -, -, -, hfex, -⟩ := diffPublishPhase_fields html s
  have h1 :
      ({ (diffPublishPhase html s).1 with updateInProgress := false, updateAgain := false } : St).docText
        = s.docText := hfd
  have h2 :
      ({ (diffPublishPhase html s).1 with updateInProgress := false, updateAgain := false } : St).visible
        = true := hfv.trans hv
  have h3 :
      ({ (diffPublishPhase html s).1 with updateInProgress := false, updateAgain := false } : St).exporter
        = some e := hfex.trans he
  rw [updatePreview_dispatch_count _ e rfl h2 (by rw [h1]; exact hd) h3, h1]

/-- A completion whose diff-and-publish phase does nothing and that
has no coalesced request only clears the in-flight flag. -/
theorem onHtmlReady_of_noop (html : String) (s : St)
    (hd : diffPublishPhase html s = (s, [])) (hua : s.updateAgain = false) :
    onHtmlReady html s = ({ s with updateInProgress := false }, []) := by
  simp [onHtmlReady, hd, hua]

/-! ## Claims -/

/-- Claim C3: when the old and new line sequences share a common
strict prefix and then both continue with a differing line, the
diff-anchoring step outputs the common prefix lines, then a single
anchor marker immediately before the first differing line of the new
text, then every remaining new line verbatim, and reports that a
difference was found. -/
theorem C3_middle_edit (p ro rn : List String) (o n : String) (hne : o ≠ n) :
    anchorDiff (p ++ o :: ro) (p ++ n :: rn) =
      (p.map Chunk.line ++ Chunk.anchor :: (n :: rn).map Chunk.line, true) := by
  induction p with
  | nil => simp [anchorDiff, hne, copyRemaining, copyRemaining_true]
  | cons a p ih => simp [anchorDiff, ih]

/-- Claim C3 witness: the spec's own example, old `["a","b","c"]`
versus new `["a","X","c"]`. -/
theorem C3_middle_edit_witness :
    ("b" : String) ≠ "X" ∧
    anchorDiff (["a"] ++ "b" :: ["c"]) (["a"] ++ "X" :: ["c"]) =
      ((["a"].map Chunk.line) ++ Chunk.anchor :: (("X" :: ["c"]).map Chunk.line),
        true) :=
  ⟨by decide, C3_middle_edit ["a"] ["c"] ["c"] "b" "X" (by decide)⟩

/-- Claim C5: when the new line sequence is a strict prefix of the old
one (trailing lines removed, nothing else differs), the diff-anchoring
step outputs all new lines followed by the anchor marker at the
truncation point, with nothing after it, and reports that a difference
was found. -/
theorem C5_truncate_anchor (p : List String) (e : String) (rest : List String) :
    anchorDiff (p ++ e :: rest) p = (p.map Chunk.line ++ [Chunk.anchor], true) := by
  induction p with
  | nil => rfl
  | cons a p ih => simp [anchorDiff, ih]

/-- Claim C6: `exportToHtml` leaves the exporter's smart-typography
setting exactly as it was before the call, for every initial value,
while the rendering itself runs with the setting forced to `true`. -/
theorem C6_typography_isolation (text : String) (e : Exporter) :
    (exportToHtml text e).2 = e ∧ (exportToHtml text e).1 = e.render text true := by
  cases e
  simp [exportToHtml]

/-- Claim C4: when the render result is line-for-line identical to the
stored vanilla baseline, the diff finds no difference, the
diff-and-publish phase leaves the state untouched and invokes neither
`setHtmlContent` nor the publisher (empty trace), and a full
`onHtmlReady` with no coalesced follow-up publishes nothing and leaves
the vanilla output and the published markup unchanged. -/
theorem C4_no_change (html : String) (s : St)
    (heq : splitLines html = splitLines s.vanillaHtml)
    (hua : s.updateAgain = false) :
    (anchorDiff (splitLines s.vanillaHtml) (splitLines html)).2 = false ∧
    diffPublishPhase html s = (s, []) ∧
    (onHtmlReady html s).1.vanillaHtml = s.vanillaHtml ∧
    (onHtmlReady html s).1.livePreviewHtml = s.livePreviewHtml ∧
    countEv isPublish (onHtmlReady html s).2 = 0 := by
  have hd : anchorDiff (splitLines s.vanillaHtml) (splitLines html) =
      ((splitLines s.vanillaHtml).map Chunk.line, false) := by
    rw [heq, anchorDiff_self]
  have hp : diffPublishPhase html s = (s, []) := by
    simp [diffPublishPhase, hd]
  refine ⟨by rw [hd], hp, ?_, ?_, ?_⟩ <;>
    simp [onHtmlReady, hp, hua, countEv]

/-- A concrete state whose vanilla baseline is `"a\nb\n"`. -/
def stC4 : St :=
  { docText := "x", filePath := "", visible := true, updateInProgress := true,
    updateAgain := false, vanillaHtml := "a\nb\n", livePreviewHtml := "p",
    styleSheet := "c", baseUrl := "", exporter := none, pending := ["a\nb"] }

/-- Claim C4 witness: two renders whose strings differ only by a
trailing newline are line-for-line identical, and the completion
publishes nothing. -/
theorem C4_no_change_witness :
    splitLines "a\nb" = splitLines (stC4.vanillaHtml) ∧
    stC4.updateAgain = false ∧
    diffPublishPhase "a\nb" stC4 = (stC4, []) :=
  ⟨by decide, rfl, (C4_no_change "a\nb" stC4 (by decide) rfl).2.1⟩

/-- The anchored serialisation a completion of `html` against the
baseline stored in `s` would publish. -/
def anchoredOf (html : String) (s : St) : String :=
  renderChunks (anchorDiff (splitLines s.vanillaHtml) (splitLines html)).1

/-- Claim C10: a completed render cycle that publishes leaves the
stored diff baseline equal to the renderer's unmodified output (the
transient overwrite by `setHtmlContent` is undone at line 321), while
the published markup is the anchored serialisation; consequently a
second completion delivering the identical output publishes nothing. -/
theorem C10_vanilla_baseline (html : String) (s : St)
    (hch : (anchorDiff (splitLines s.vanillaHtml) (splitLines html)).2 = true)
    (hua : s.updateAgain = false) :
    (onHtmlReady html s).1.vanillaHtml = html ∧
    (onHtmlReady html s).1.livePreviewHtml = anchoredOf html s ∧
    countEv isPublish (onHtmlReady html ((onHtmlReady html s).1)).2 = 0 := by
  have hdp : diffPublishPhase html s =
      ({ s with vanillaHtml := html, livePreviewHtml := anchoredOf html s },
        [Ev.publish (anchoredOf html s)]) := by
    simp [diffPublishPhase, setHtmlContent, hch, anchoredOf]
  have h1 : onHtmlReady html s =
      ({ s with updateInProgress := false, vanillaHtml := html,
                livePreviewHtml := anchoredOf html s },
        [Ev.publish (anchoredOf html s)]) := by
    simp [onHtmlReady, hdp, hua]
  have hself : (anchorDiff (splitLines (onHtmlReady html s).1.vanillaHtml)
      (splitLines html)).2 = false := by
    rw [h1]
    simp [anchorDiff_self]
  have hdp2 : diffPublishPhase html (onHtmlReady html s).1 =
      ((onHtmlReady html s).1, []) := by
    simp [diffPublishPhase, hself]
  have h2 : (onHtmlReady html s).1.updateAgain = false := by
    rw [h1]
    exact hua
  refine ⟨by rw [h1], by rw [h1], ?_⟩
  rw [onHtmlReady_of_noop html (onHtmlReady html s).1 hdp2 h2]
  rfl

/-- A concrete state whose vanilla baseline is `"a\n"`. -/
def stC10 : St :=
  { docText := "x", filePath := "", visible := false, updateInProgress := true,
    updateAgain := false, vanillaHtml := "a\n", livePreviewHtml := "a\n",
    styleSheet := "", baseUrl := "", exporter := none, pending := ["b\n"] }

/-- Claim C10 witness: completing a render of `"b\n"` against the
baseline `"a\n"` stores `"b\n"` as the new baseline. -/
theorem C10_vanilla_baseline_witness :
    (anchorDiff (splitLines stC10.vanillaHtml) (splitLines "b\n")).2 = true ∧
    stC10.updateAgain = false ∧
    (onHtmlReady "b\n" stC10).1.vanillaHtml = "b\n" :=
  ⟨by decide, rfl, (C10_vanilla_baseline "b\n" stC10 (by decide) rfl).1⟩

/-- An exporter whose renderer echoes the input text. -/
def expId : Exporter :=
  { smartTypographyEnabled := false, render := fun text _ => text }

/-- A reachable state with a render in flight and the widget hidden:
the preview was shown, an update dispatched a render, then the widget
was hidden again. -/
def stC7 : St :=
  { (updatePreview { mkInit "x" "" (some expId) id id with
      visible := true }).1 with visible := false }

/-- Claim C7 counterexample: in the reachable state `stC7` the widget
is not visible, yet `updatePreview` is not a no-op — the call flips
`updateAgain` from `false` to `true`, because the in-flight check at
line 213 precedes the visibility check at line 218. -/
theorem C7_counterexample :
    stC7.visible = false ∧ stC7.updateAgain = false ∧
    (updatePreview stC7).1.updateAgain = true := by
  refine ⟨rfl, rfl, rfl⟩

/-- Claim C7 amended: a call to `updatePreview` while the widget is
not visible and no render is in flight is a no-op — same state, no
events.  (When a render is in flight, the call sets `updateAgain`
even while hidden.) -/
theorem C7_invisible_noop (s : St) (hv : s.visible = false)
    (hp : s.updateInProgress = false) :
    updatePreview s = (s, []) := by
  simp [updatePreview, hv, hp]

/-- A concrete hidden, idle state. -/
def stC7w : St :=
  { docText := "x", filePath := "", visible := false,
    updateInProgress := false, updateAgain := false, vanillaHtml := "v",
    livePreviewHtml := "l", styleSheet := "c", baseUrl := "",
    exporter := none, pending := [] }

/-- Claim C7 witness for the amended statement. -/
theorem C7_invisible_noop_witness :
    stC7w.visible = false ∧ stC7w.updateInProgress = false ∧
    updatePreview stC7w = (stC7w, []) :=
  ⟨rfl, rfl, C7_invisible_noop stC7w rfl rfl⟩

/-- A concrete state carrying a non-empty stylesheet. -/
def stC8 : St :=
  { docText := "", filePath := "", visible := true,
    updateInProgress := false, updateAgain := false, vanillaHtml := "v",
    livePreviewHtml := "l", styleSheet := "css", baseUrl := "",
    exporter := none, pending := [] }

/-- Claim C8 counterexample: neither closing the preview nor an
empty-document update resets the stylesheet — after `closeEvent` (and
likewise after the empty-document `updatePreview`) the stylesheet is
still `"css"`, not the empty value the claim requires. -/
theorem C8_counterexample :
    (closeEvent stC8).1.styleSheet = "css" ∧ ("css" : String) ≠ "" ∧
    (updatePreview stC8).1.styleSheet = "css" := by
  refine ⟨rfl, by decide, rfl⟩

/-- Claim C8 amended: closing the previewed document and swapping the
active renderer always reset the stored vanilla output and the
published anchored markup to the empty value, and an update request on
an empty document does so when the widget is visible and no render is
in flight; the stylesheet is left unchanged in every case. -/
theorem C8_reset (s : St) (e : Exporter) :
    ((closeEvent s).1.vanillaHtml = "" ∧
      (closeEvent s).1.livePreviewHtml = "" ∧
      (closeEvent s).1.styleSheet = s.styleSheet) ∧
    ((setHtmlExporter e s).1.vanillaHtml = "" ∧
      (setHtmlExporter e s).1.livePreviewHtml = "" ∧
      (setHtmlExporter e s).1.styleSheet = s.styleSheet) ∧
    (s.docText.isEmpty = true → s.visible = true →
      s.updateInProgress = false →
      (updatePreview s).1.vanillaHtml = "" ∧
      (updatePreview s).1.livePreviewHtml = "" ∧
      (updatePreview s).1.styleSheet = s.styleSheet) := by
  refine ⟨?_, ?_, ?_⟩
  · simp [closeEvent, setHtmlContent]
  · obtain ⟨h1, h2, h3⟩ :=
      updatePreview_content ((setHtmlContent "" { s with exporter := some e }).1)
    exact ⟨h1.elim (fun h => h) (fun h => h), h2.elim (fun h => h) (fun h => h), h3⟩
  · intro hd hv hp
    simp [updatePreview, setHtmlContent, hd, hv, hp]

/-- Claim C8 witness for the amended statement: the empty-document
update conjunct discharged at a concrete visible, idle state. -/
theorem C8_reset_witness :
    stC8.docText.isEmpty = true ∧ stC8.visible = true ∧
    stC8.updateInProgress = false ∧
    ((updatePreview stC8).1.vanillaHtml = "" ∧
      (updatePreview stC8).1.livePreviewHtml = "" ∧
      (updatePreview stC8).1.styleSheet = stC8.styleSheet) :=
  ⟨rfl, rfl, rfl, (C8_reset stC8 expId).2.2 rfl rfl rfl⟩

/-- Claim C9: on a file-path change, `updateBaseDir` recomputes the
base location (the resolved containing directory with a trailing
separator, as a local-file URL, when a path exists; empty when not),
performs exactly one shell reload rooted there, and then behaves as
exactly one `updatePreview` call on the re-based state — the reload
strictly preceding the update request in the trace. -/
theorem C9_path_change_reload (rd fl : String → String) (s : St) :
    updateBaseDir rd fl s =
      ((updatePreview { s with baseUrl := baseLocation rd fl s.filePath }).1,
        Ev.reloadShell (baseLocation rd fl s.filePath) ::
          (updatePreview { s with
            baseUrl := baseLocation rd fl s.filePath }).2) ∧
    countEv isReload (updateBaseDir rd fl s).2 = 1 ∧
    (s.filePath.isEmpty = true → baseLocation rd fl s.filePath = "") ∧
    (s.filePath.isEmpty = false →
      baseLocation rd fl s.filePath = fl (rd s.filePath ++ "/")) := by
  refine ⟨rfl, ?_, ?_, ?_⟩
  · rcases updatePreview_events
        { s with baseUrl := baseLocation rd fl s.filePath } with h | h | h <;>
      simp [updateBaseDir, countEv, h, isReload]
  · intro h
    simp [baseLocation, h]
  · intro h
    simp [baseLocation, h]

/-- Claim C1: any `N ≥ 2` calls to `updatePreview` during an
in-flight render coalesce — each call only sets `updateAgain`, emits
nothing, and leaves the state exactly as one such call would; the
completion then clears `updateAgain` and dispatches at most one
follow-up render, and exactly one when the widget is visible, the
document non-empty and an exporter configured — regardless of `N`. -/
theorem C1_coalescing (s : St) (html : String) (n : Nat)
    (hbusy : s.updateInProgress = true) (hn : 2 ≤ n) :
    (updatePreview s).2 = [] ∧
    updateN n s = { s with updateAgain := true } ∧
    onHtmlReady html (updateN n s) = onHtmlReady html (updateN 1 s) ∧
    (onHtmlReady html (updateN n s)).1.updateAgain = false ∧
    countEv isDispatch (onHtmlReady html (updateN n s)).2 ≤ 1 ∧
    (s.visible = true → s.docText.isEmpty = false → s.exporter.isSome →
      countEv isDispatch (onHtmlReady html (updateN n s)).2 = 1) := by
  have h1 : updateN n s = { s with updateAgain := true } :=
    updateN_busy n s hbusy (by omega)
  have h0 : updateN 1 s = { s with updateAgain := true } :=
    updateN_busy 1 s hbusy (by omega)
  obtain ⟨hfd, hffp, hfv, hfip, hfua, hfss, hfbu, hfex, hfpd⟩ :=
    diffPublishPhase_fields html { s with updateAgain := true }
  have hua2 :
      (diffPublishPhase html { s with updateAgain := true }).1.updateAgain =
        true := hfua
  have key : onHtmlReady html { s with updateAgain := true } =
      ((updatePreview
          { (diffPublishPhase html { s with updateAgain := true }).1 with
            updateInProgress := false, updateAgain := false }).1,
        (diffPublishPhase html { s with updateAgain := true }).2 ++
          (updatePreview
            { (diffPublishPhase html { s with updateAgain := true }).1 with
              updateInProgress := false, updateAgain := false }).2) := by
    simp [onHtmlReady, hua2]
  refine ⟨?_, h1, by rw [h1, h0], ?_, ?_, ?_⟩
  · rw [updatePreview_busy s hbusy]
  · rw [h1, key, updatePreview_updateAgain _ rfl]
  · rw [h1, key]
    rcases diffPublishPhase_events html { s with updateAgain := true }
        with hp2 | hp2 <;>
      rcases updatePreview_events
          { (diffPublishPhase html { s with updateAgain := true }).1 with
            updateInProgress := false, updateAgain := false }
        with hu2 | hu2 | hu2 <;>
      simp [countEv, hp2, hu2, isDispatch, isPublish]
  · intro hv hd he
    obtain ⟨e, he2⟩ := Option.isSome_iff_exists.mp he
    rw [h1, key]
    have hu : (updatePreview
        { (diffPublishPhase html { s with updateAgain := true }).1 with
          updateInProgress := false, updateAgain := false }).2 =
        [Ev.renderDispatched ({ s with updateAgain := true } : St).docText] :=
      coalesced_dispatch html { s with updateAgain := true } hv hd e he2
    rcases diffPublishPhase_events html { s with updateAgain := true }
        with hp2 | hp2 <;>
      simp [countEv, hp2, hu, isDispatch, isPublish]

/-- A concrete state with a render in flight, visible, non-empty
document and configured exporter. -/
def stC1 : St :=
  { docText := "hello", filePath := "", visible := true,
    updateInProgress := true, updateAgain := false, vanillaHtml := "",
    livePreviewHtml := "", styleSheet := "", baseUrl := "",
    exporter := some expId, pending := ["hello"] }

/-- Claim C1 witness: two calls during the in-flight render collapse
into setting `updateAgain` once. -/
theorem C1_coalescing_witness :
    stC1.updateInProgress = true ∧ 2 ≤ 2 ∧
    updateN 2 stC1 = { stC1 with updateAgain := true } :=
  ⟨rfl, by decide, (C1_coalescing stC1 "h" 2 rfl (by decide)).2.1⟩

/-- The single-flight invariant: at most one render outstanding, and
outstanding exactly when `updateInProgress` is set. -/
def Inv (s : St) : Prop :=
  s.pending.length ≤ 1 ∧ (s.updateInProgress = true ↔ s.pending ≠ [])

/-- The function `updatePreview` preserves the single-flight invariant. -/
theorem inv_updatePreview (s : St) (h : Inv s) : Inv (updatePreview s).1 := by
  rcases h with ⟨hl, hiff⟩
  by_cases hip : s.updateInProgress = true
  · rw [updatePreview_busy s hip]
    exact ⟨hl, hiff⟩
  · have hip2 : s.updateInProgress = false := by
      cases hb : s.updateInProgress
      · rfl
      · exact absurd hb hip
    have hpe : s.pending = [] := by
      by_contra hne
      rw [hiff.mpr hne] at hip2
      cases hip2
    unfold updatePreview setHtmlContent
    simp only [hip2]
    repeat' split
    all_goals simp_all [Inv]

/-- Case split on a completion: either no coalesced request was
pending (flag cleared, nothing more), or the follow-up
`updatePreview` runs on the cleared state. -/
theorem onHtmlReady_state (html : String) (s : St) :
    (onHtmlReady html s).1 =
      { (diffPublishPhase html s).1 with updateInProgress := false } ∨
    (onHtmlReady html s).1 =
      (updatePreview { (diffPublishPhase html s).1 with updateInProgress := false, updateAgain := false }).1 := by
  by_cases hua : (diffPublishPhase html s).1.updateAgain = true <;>
    simp [onHtmlReady, hua]

/-- A completion on a state with no outstanding future restores the
single-flight invariant. -/
theorem inv_onHtmlReady (html : String) (s : St) (hpe : s.pending = []) :
    Inv (onHtmlReady html s).1 := by
  obtain ⟨-, -, -, -, -, -, -, -, hfpd⟩ := diffPublishPhase_fields html s
  rcases onHtmlReady_state html s with h | h <;> rw [h]
  · constructor
    · simp [hfpd, hpe]
    · simp [hfpd, hpe]
  · refine inv_updatePreview _ ⟨?_, ?_⟩
    · simp [hfpd, hpe]
    · simp [hfpd, hpe]

/-- Every step of the preview instance preserves the single-flight
invariant. -/
theorem inv_step {s s2 : St} (h : Inv s) (hs : Step s s2) : Inv s2 := by
  cases hs with
  | editDoc t s => exact ⟨h.1, h.2⟩
  | setVisible b s => exact ⟨h.1, h.2⟩
  | update s => exact inv_updatePreview s h
  | complete s hd rest hp =>
      have hr : rest = [] := by
        have hlen := h.1
        rw [hp] at hlen
        simpa using hlen
      subst hr
      exact inv_onHtmlReady hd { s with pending := [] } rfl
  | close s => exact ⟨h.1, h.2⟩
  | swapExporter e s => exact inv_updatePreview _ ⟨h.1, h.2⟩
  | setStyle css s => exact ⟨h.1, h.2⟩
  | pathChanged p rd fl s => exact inv_updatePreview _ ⟨h.1, h.2⟩

/-- The constructor establishes the single-flight invariant. -/
theorem inv_init (docText filePath : String) (exporter : Option Exporter)
    (rd fl : String → String) :
    Inv (mkInit docText filePath exporter rd fl) := by
  refine inv_updatePreview _ ⟨?_, ?_⟩ <;> simp

/-- Every reachable state satisfies the single-flight invariant. -/
theorem reachable_inv {s : St} (h : Reachable s) : Inv s := by
  induction h with
  | init docText filePath exporter rd fl => exact inv_init docText filePath exporter rd fl
  | step hr hs ih => exact inv_step ih hs

/-- Claim C2: in every reachable state at most one asynchronous render
is outstanding, and while one is in flight a further `updatePreview`
call starts no new future and dispatches nothing — a render is
dispatched only from the idle state. -/
theorem C2_single_flight (s : St) (hr : Reachable s) :
    s.pending.length ≤ 1 ∧
    (s.updateInProgress = true →
      (updatePreview s).1.pending = s.pending ∧ (updatePreview s).2 = []) := by
  refine ⟨(reachable_inv hr).1, ?_⟩
  intro hip
  rw [updatePreview_busy s hip]
  exact ⟨rfl, rfl⟩

/-- A reachable state with one render in flight: constructed, shown,
then updated. -/
def stC2 : St :=
  (updatePreview { mkInit "x" "" (some expId) id id with visible := true }).1

/-- Claim C2 witness: the reachable state `stC2` has at most one
outstanding render. -/
theorem C2_single_flight_witness : stC2.pending.length ≤ 1 :=
  (C2_single_flight stC2
    (Reachable.step
      (Reachable.step (Reachable.init "x" "" (some expId) id id)
        (Step.setVisible true _))
      (Step.update _))).1

end ghostwriter
